import Mathlib

/-!
Verification of the aoe4-api-integration data-synchronization pipeline.

Shallow embedding of the repository's Python sources:
  * `src/sync/sync_service.py`   — `SyncService` (meta-stats sync, leaderboard sync,
    civilization-slug normalization);
  * `src/api/aoe4world_client.py` — `AoE4WorldAPIClient` (rate limiter, request
    construction, leaderboard accessors);
  * `src/docs/generate_import_sql.py` — batch SQL generator (escaping, cost
    aggregation, base-entity deduplication).

Python strings are modelled as `List Char` where character-level operations
matter, and as Lean `String` where only equality matters.  Remote HTTP and the
row store are modelled as explicit oracles (`Except`-valued functions), and the
effects of a sync operation are returned as explicit traces of the requests
issued and write batches attempted.  The wall clock of the rate limiter is an
explicit rational-valued state.
-/

namespace Aoe4

/-- The single-quote character (`chr 39`), written via its code point. -/
def sq : Char := Char.ofNat 39

/-- The backslash character (`chr 92`), written via its code point. -/
def bs : Char := Char.ofNat 92

/-- Python `str.replace(pat, rep)` for a one-character pattern `c`.
Python replaces every (necessarily non-overlapping) occurrence of the
one-character pattern and never rescans the replacement text, which for a
single-character pattern is exactly this character-wise expansion. -/
def pyReplaceChar (c : Char) (r : List Char) : List Char → List Char
  | [] => []
  | x :: xs => (if x = c then r else [x]) ++ pyReplaceChar c r xs

/-- Number of occurrences of character `c` in `l`. -/
def countChar (c : Char) (l : List Char) : Nat :=
  l.countP (fun x => x = c)

/-- Scans a would-be SQL literal body: `true` iff every single quote is
immediately followed by a partner quote (quotes occur only in adjacent pairs),
so no unescaped quote can terminate the literal early. -/
def quotesPaired : List Char → Bool
  | [] => true
  | x :: xs =>
    if x = sq then
      match xs with
      | [] => false
      | y :: ys => if y = sq then quotesPaired ys else false
    else quotesPaired xs

/-- A Python value as seen by `escape_sql`: either a `str` or anything else. -/
inductive PyVal where
  | str (t : List Char) : PyVal
  | nonStr : PyVal
deriving DecidableEq

/-- Embeds `escape_sql` of `docs/generate_import_sql.py`:
`if not isinstance(text, str): return ''` then
`text.replace("'", "''").replace("\\", "\\\\")[:1000]` —
double every single quote, then double every backslash, then keep the first
1000 characters. -/
def escape_sql : PyVal → List Char
  | PyVal.nonStr => []
  | PyVal.str t =>
    (pyReplaceChar bs [bs, bs] (pyReplaceChar sq [sq, sq] t)).take 1000

/-- The escaped text of `escape_sql` before the `[:1000]` slice. -/
def escapedFull (t : List Char) : List Char :=
  pyReplaceChar bs [bs, bs] (pyReplaceChar sq [sq, sq] t)

/-- The static slug table of `SyncService._normalize_civ_id`
(`src/sync/sync_service.py`). -/
def civ_map : List (String × String) :=
  [("abbasid", "abbasid"),
   ("ayyubids", "ayyubids"),
   ("byzantines", "byzantines"),
   ("chinese", "chinese"),
   ("delhi", "delhi"),
   ("english", "english"),
   ("french", "french"),
   ("hre", "hre"),
   ("japanese", "japanese"),
   ("malians", "malians"),
   ("mongols", "mongols"),
   ("ottomans", "ottomans"),
   ("rus", "rus"),
   ("golden-horde", "golden_horde"),
   ("jeanne-darc", "jeanne_darc"),
   ("lancaster", "lancaster"),
   ("macedonian", "macedonian"),
   ("order-of-the-dragon", "order_of_the_dragon"),
   ("sengoku", "sengoku"),
   ("templar", "templar"),
   ("tughlaq", "tughlaq"),
   ("zhu-xis-legacy", "zhuxi")]

/-- Python `dict.get(k, default)` on an association list whose keys are
pairwise distinct (as in a Python dict literal): first match wins. -/
def dictGet (m : List (String × String)) (k : String) (dflt : String) : String :=
  match m.find? (fun p => p.1 = k) with
  | some p => p.2
  | none => dflt

/-- Embeds `SyncService._normalize_civ_id`:
`civ_map.get(civ_slug, civ_slug.replace('-', '_'))`. -/
def normalize_civ_id (civ_slug : String) : String :=
  dictGet civ_map civ_slug (String.mk (pyReplaceChar '-' ['_'] civ_slug.data))

/-! ### Meta-stats sync (`SyncService.sync_civ_meta_stats`) -/

/-- The default leaderboard list of `sync_civ_meta_stats` (and of
`sync_all_leaderboards` / `get_all_civ_stats`). -/
def defaultLeaderboards : List String :=
  ["rm_solo", "rm_team", "rm_1v1", "rm_2v2", "rm_3v3", "rm_4v4"]

/-- The default rank-level list of `sync_civ_meta_stats`. -/
def defaultRankLevels : List String :=
  ["all", "bronze", "silver", "gold", "platinum", "diamond", "conqueror"]

/-- One civilization-statistics record as returned by
`AoE4WorldAPIClient.get_civ_stats`, with the fields `sync_civ_meta_stats`
reads (each read with `.get(key, 0)` / `.get('civ_slug', '')`, so the record
carries the already-defaulted values). -/
structure CivStat where
  civ_slug : String
  win_rate : Int
  pick_rate : Int
  games_count : Int
  wins : Int
  losses : Int
deriving DecidableEq

/-- One row of the `civilization_meta_stats` table as built by
`sync_civ_meta_stats`. -/
structure MetaStatRow where
  civ_id : String
  leaderboard : String
  rank_level : String
  win_rate : Int
  pick_rate : Int
  games_count : Int
  wins : Int
  losses : Int
  last_updated : String
deriving DecidableEq

/-- The record-mapping body of the inner loop of `sync_civ_meta_stats`:
one API stat record into one `civilization_meta_stats` row.  The timestamp
`ts` stands for `datetime.utcnow().isoformat()` at mapping time. -/
def mkMetaStatRow (leaderboard rank_level ts : String) (stat : CivStat) :
    MetaStatRow :=
  { civ_id := normalize_civ_id stat.civ_slug
    leaderboard := leaderboard
    rank_level := rank_level
    win_rate := stat.win_rate
    pick_rate := stat.pick_rate
    games_count := stat.games_count
    wins := stat.wins
    losses := stat.losses
    last_updated := ts }

/-- Observable effects and return value of one `sync_civ_meta_stats` call:
the `(leaderboard, rank_level)` fetches attempted over HTTP, the
`upsert_civ_meta_stats` batches issued to the row store, and the returned
count. -/
structure MetaSyncOut where
  fetches : List (String × String)
  upserts : List (List MetaStatRow)
  ret : Nat
deriving DecidableEq

/-- Embeds `SyncService.sync_civ_meta_stats`.  `fetch lb rl` is the outcome of
`self.api.get_civ_stats(lb, rl)` (the `Except.error` case standing for a raised
exception); the surrounding `try`/`except` logs a per-pair error and continues,
so an erroring pair contributes no records.  After both loops, the accumulated
list is upserted in one batch iff it is non-empty (`if all_stats:`), and its
length is returned. -/
def sync_civ_meta_stats (fetch : String → String → Except Unit (List CivStat))
    (ts : String) (leaderboards rank_levels : Option (List String)) :
    MetaSyncOut :=
  let lbs := leaderboards.getD defaultLeaderboards
  let rls := rank_levels.getD defaultRankLevels
  let pairs := lbs.flatMap (fun lb => rls.map (fun rl => (lb, rl)))
  let all_stats := pairs.flatMap (fun p =>
    match fetch p.1 p.2 with
    | Except.ok stats => stats.map (mkMetaStatRow p.1 p.2 ts)
    | Except.error _ => [])
  { fetches := pairs
    upserts := if all_stats.isEmpty then [] else [all_stats]
    ret := all_stats.length }

/-! ### Leaderboard sync (`SyncService.sync_leaderboard`) -/

/-- One leaderboard-page request as issued by
`AoE4WorldAPIClient.get_leaderboard`: endpoint `/leaderboards/{leaderboard}`
with query parameters `count` and `page`. -/
structure LBRequest where
  leaderboard : String
  count : Nat
  page : Nat
deriving DecidableEq

/-- One player record of a leaderboard page, with the fields
`sync_leaderboard` reads (each read with its `.get` default; `profile_id` has
no default, so a missing key yields `none`). -/
structure Player where
  profile_id : Option Int
  name : String
  rank : Int
  rating : Int
  games_count : Int
  wins : Int
  losses : Int
  win_rate : Int
deriving DecidableEq

/-- A leaderboard page response: the `players` list the page returned
(`data.get('players', [])` in `get_top_players`). -/
structure LBResponse where
  players : List Player
deriving DecidableEq

/-- One row of the `leaderboard_players` table as built by
`sync_leaderboard`. -/
structure PlayerRow where
  player_id : Option Int
  player_name : String
  rank : Int
  rating : Int
  games_count : Int
  wins : Int
  losses : Int
  win_rate : Int
  leaderboard : String
  last_updated : String
deriving DecidableEq

/-- The record-mapping body of the loop of `sync_leaderboard`: one API player
record into one `leaderboard_players` row. -/
def mkPlayerRow (leaderboard ts : String) (p : Player) : PlayerRow :=
  { player_id := p.profile_id
    player_name := p.name
    rank := p.rank
    rating := p.rating
    games_count := p.games_count
    wins := p.wins
    losses := p.losses
    win_rate := p.win_rate
    leaderboard := leaderboard
    last_updated := ts }

/-- Observable effects and outcome of one `sync_leaderboard` call: the
leaderboard-page requests issued, the `upsert_leaderboard_players` batches
attempted (a batch is recorded even when the write raises), and the result —
`Except.error` standing for an exception escaping to the caller, `Except.ok n`
for a normal return of `n`. -/
structure LBSyncOut where
  requests : List LBRequest
  writeAttempts : List (List PlayerRow)
  result : Except Unit Nat

/-- The body of `SyncService.sync_leaderboard` without its `try`/`except`:
`get_top_players` issues one `get_leaderboard(leaderboard, count)` request
(`count` sent as `min(count, 200)`, `page=1`); each returned player is mapped
to a row; a non-empty row list is upserted in one batch (`if db_records:`);
the row count is returned.  `api` is the outcome of the HTTP request and `db`
the outcome of the row-store upsert, `Except.error` standing for a raised
exception. -/
def sync_leaderboard_body (api : LBRequest → Except Unit LBResponse)
    (db : List PlayerRow → Except Unit Unit) (ts leaderboard : String)
    (count : Nat) : LBSyncOut :=
  match api { leaderboard := leaderboard, count := min count 200, page := 1 } with
  | Except.error e =>
    { requests := [{ leaderboard := leaderboard, count := min count 200, page := 1 }]
      writeAttempts := []
      result := Except.error e }
  | Except.ok resp =>
    if (resp.players.map (mkPlayerRow leaderboard ts)).isEmpty then
      { requests := [{ leaderboard := leaderboard, count := min count 200, page := 1 }]
        writeAttempts := []
        result := Except.ok (resp.players.map (mkPlayerRow leaderboard ts)).length }
    else
      match db (resp.players.map (mkPlayerRow leaderboard ts)) with
      | Except.ok _ =>
        { requests := [{ leaderboard := leaderboard, count := min count 200, page := 1 }]
          writeAttempts := [resp.players.map (mkPlayerRow leaderboard ts)]
          result := Except.ok (resp.players.map (mkPlayerRow leaderboard ts)).length }
      | Except.error e =>
        { requests := [{ leaderboard := leaderboard, count := min count 200, page := 1 }]
          writeAttempts := [resp.players.map (mkPlayerRow leaderboard ts)]
          result := Except.error e }

/-- The `except Exception: logger.error(...); return 0` handler of
`sync_leaderboard`: a raised exception becomes a normal return of 0. -/
def catchReturnZero (r : Except Unit Nat) : Except Unit Nat :=
  match r with
  | Except.ok n => Except.ok n
  | Except.error _ => Except.ok 0

/-- Embeds `SyncService.sync_leaderboard`: its whole body runs inside
`try: ... except Exception: logger.error(...); return 0`, so any exception —
from the fetch or from the row-store write — is caught and the call returns 0. -/
def sync_leaderboard (api : LBRequest → Except Unit LBResponse)
    (db : List PlayerRow → Except Unit Unit) (ts leaderboard : String)
    (count : Nat) : LBSyncOut :=
  { requests := (sync_leaderboard_body api db ts leaderboard count).requests
    writeAttempts := (sync_leaderboard_body api db ts leaderboard count).writeAttempts
    result := catchReturnZero (sync_leaderboard_body api db ts leaderboard count).result }

/-! ### Rate limiter (`AoE4WorldAPIClient._rate_limit` / `_make_request`)

The wall clock is modelled as an explicit rational-valued time.  `time.time()`
reads the current clock; `time.sleep(x)` advances it by at least `x`; any
slack — oversleep plus the time the interpreter spends between statements — is
an explicit non-negative parameter. -/

/-- The client state the rate limiter touches: the current wall-clock time and
the mutable `last_request_time` field (initialized to 0 in `__init__`). -/
structure RLState where
  now : ℚ
  last_request_time : ℚ
deriving DecidableEq

/-- Embeds `AoE4WorldAPIClient._rate_limit`:
read `current_time = time.time()`; if `current_time - last_request_time` is
below `rate_limit_delay`, sleep exactly the remaining delta; then record
`last_request_time = time.time()`.  `slack` is the non-negative extra time
elapsing before the second `time.time()` read (oversleep and interpreter
time).  Returns the new state together with the sleep duration requested
(0 when no sleep happens). -/
def rate_limit (rate_limit_delay : ℚ) (s : RLState) (slack : ℚ) :
    RLState × ℚ :=
  let current_time := s.now
  let time_since_last_request := current_time - s.last_request_time
  let sleepReq :=
    if time_since_last_request < rate_limit_delay then
      rate_limit_delay - time_since_last_request
    else 0
  let t := current_time + sleepReq + slack
  ({ now := t, last_request_time := t }, sleepReq)

/-- Timing observations of one `_make_request` call: the final clock state,
the recorded `last_request_time`, the requested sleep, and the start and end
times of the HTTP GET itself. -/
structure ReqTiming where
  state : RLState
  recorded : ℚ
  sleepReq : ℚ
  getStart : ℚ
  getEnd : ℚ
deriving DecidableEq

/-- Embeds the timing skeleton of `AoE4WorldAPIClient._make_request`:
`self._rate_limit()` runs first — so `last_request_time` is recorded *before*
the GET is issued — then `self.session.get(...)` occupies the clock for
`getDur ≥ 0`. -/
def make_request_timing (rate_limit_delay : ℚ) (s : RLState)
    (slack getDur : ℚ) : ReqTiming :=
  let rl := rate_limit rate_limit_delay s slack
  { state := { now := rl.1.now + getDur
               last_request_time := rl.1.last_request_time }
    recorded := rl.1.last_request_time
    sleepReq := rl.2
    getStart := rl.1.now
    getEnd := rl.1.now + getDur }

/-- The clock advancing by `i ≥ 0` between two `_make_request` calls, with the
client state otherwise untouched. -/
def idle (s : RLState) (i : ℚ) : RLState :=
  { s with now := s.now + i }

/-! ### Cost extraction (`docs/generate_import_sql.py`, civ_units and
civ_buildings loops) -/

/-- A `costs` JSON object as a Python dict: association list of
resource-name/amount pairs with pairwise-distinct keys. -/
def CostDict := List (String × Int)

/-- Python `costs.get(key, 0)` on a cost dict. -/
def costsGet (costs : CostDict) (key : String) : Int :=
  match costs.find? (fun p => p.1 = key) with
  | some p => p.2
  | none => 0

/-- Embeds the `cost_gold` extraction of the civ_units loop:
`costs.get('gold', 0) + costs.get('oliveoil', 0) + costs.get('vizier', 0)`. -/
def unit_cost_gold (costs : CostDict) : Int :=
  costsGet costs "gold" + costsGet costs "oliveoil" + costsGet costs "vizier"

/-- Embeds the `cost_gold` extraction of the civ_buildings loop — textually
the same expression as in the civ_units loop. -/
def building_cost_gold (costs : CostDict) : Int :=
  costsGet costs "gold" + costsGet costs "oliveoil" + costsGet costs "vizier"

/-! ### Base-entity deduplication (`docs/generate_import_sql.py`) -/

/-- One entity record (`unit`/`building`/`tech`) as read from a
per-civilization source file: its raw `id`, `name` and `description`
(each via `.get(key, '')`). -/
structure Entity where
  id : String
  name : String
  description : String
deriving DecidableEq

/-- A base-table INSERT as emitted by the generator: identifier plus the
`escape_sql`-escaped name and description. -/
structure BaseInsert where
  id : String
  name : List Char
  description : List Char
deriving DecidableEq

/-- The INSERT the generator emits for entity `e`. -/
def mkBaseInsert (e : Entity) : BaseInsert :=
  { id := e.id
    name := escape_sql (PyVal.str e.name.data)
    description := escape_sql (PyVal.str e.description.data) }

/-- Embeds the base-table emission loops of the generator (the base_units,
base_buildings and base_technologies loops are copies of the same shape):
iterate entities in file order, `continue` when the id is empty or already in
the seen dict, otherwise mark it seen and emit one INSERT. -/
def dedupBaseInserts : List Entity → List String → List BaseInsert
  | [], _ => []
  | e :: rest, seen =>
    if e.id = "" ∨ e.id ∈ seen then dedupBaseInserts rest seen
    else mkBaseInsert e :: dedupBaseInserts rest (e.id :: seen)

/-- Specification-side description of the deduplication, stated as the
standard first-occurrence dedup (keep an entity with a non-empty id and erase
every later entity with the same id), independent of the seen-dict loop. -/
def firstOccurrences : List Entity → List BaseInsert
  | [] => []
  | e :: rest =>
    if e.id = "" then firstOccurrences rest
    else
      mkBaseInsert e ::
        firstOccurrences (rest.filter (fun x => decide (x.id ≠ e.id)))
termination_by es => es.length
decreasing_by
  · simp
  · simpa [Nat.lt_succ_iff] using List.length_filter_le _ rest

/-- The per-character expansion performed by the two chained `replace` calls
of `escape_sql` (their patterns are distinct single characters and neither
replacement contains the other pattern). -/
def escChar (x : Char) : List Char :=
  if x = sq then [sq, sq] else if x = bs then [bs, bs] else [x]

/-- The concrete slug-truncation counterexample input: 999 filler characters
followed by one single quote, so the doubled quote straddles the 1000-character
cut. -/
def badEscapeInput : List Char := List.replicate 999 'a' ++ [sq]

/-- The concrete input of the spec's escaping example: the characters of
`It` + quote + `s a "test"` + backslash. -/
def itsATest : List Char :=
  ['I', 't', sq, 's', ' ', 'a', ' ', '"', 't', 'e', 's', 't', '"', bs]

/-- The expected escaped form of `itsATest`: its quote doubled and its
backslash doubled. -/
def itsATestEscaped : List Char :=
  ['I', 't', sq, sq, 's', ' ', 'a', ' ', '"', 't', 'e', 's', 't', '"', bs, bs]

/-! ## Helper lemmas -/

theorem pyReplaceChar_append (c : Char) (r l1 l2 : List Char) :
    pyReplaceChar c r (l1 ++ l2) =
      pyReplaceChar c r l1 ++ pyReplaceChar c r l2 := by
  induction l1 with
  | nil => rfl
  | cons x xs ih => simp [pyReplaceChar, ih]

theorem mem_pyReplaceChar_self_of_not_mem {c : Char} {r : List Char}
    (hc : c ∉ r) : ∀ l : List Char, c ∉ pyReplaceChar c r l := by
  intro l
  induction l with
  | nil => simp [pyReplaceChar]
  | cons x xs ih =>
    by_cases hx : x = c
    · simpa [pyReplaceChar, hx] using ⟨hc, ih⟩
    · simp [pyReplaceChar, hx, ih]
      exact fun h => hx h.symm

theorem sq_ne_bs : sq ≠ bs := by decide

theorem bs_ne_sq : bs ≠ sq := by decide

theorem escChar_sq : escChar sq = [sq, sq] := by
  simp [escChar]

theorem escChar_bs : escChar bs = [bs, bs] := by
  simp [escChar, bs_ne_sq]

theorem escChar_other {x : Char} (hx : x ≠ sq) (hb : x ≠ bs) :
    escChar x = [x] := by
  simp [escChar, hx, hb]

theorem escapedFull_eq_flatMap (t : List Char) :
    escapedFull t = t.flatMap escChar := by
  induction t with
  | nil => rfl
  | cons x xs ih =>
    have hblock :
        escapedFull (x :: xs) =
          pyReplaceChar bs [bs, bs]
            (if x = sq then [sq, sq] else [x]) ++ escapedFull xs := by
      simp only [escapedFull, pyReplaceChar]
      rw [pyReplaceChar_append]
    rw [hblock, ih, List.flatMap_cons]
    congr 1
    by_cases hx : x = sq
    · subst hx
      simp [escChar_sq, pyReplaceChar, sq_ne_bs]
    · by_cases hb : x = bs
      · subst hb
        simp [escChar_bs, pyReplaceChar]
      · simp [escChar_other hx hb, pyReplaceChar, hx, hb]

theorem countChar_append (c : Char) (l1 l2 : List Char) :
    countChar c (l1 ++ l2) = countChar c l1 + countChar c l2 := by
  simp [countChar, List.countP_append]

theorem countChar_sq_flatMap_escChar (t : List Char) :
    countChar sq (t.flatMap escChar) = 2 * countChar sq t := by
  induction t with
  | nil => rfl
  | cons x xs ih =>
    rw [List.flatMap_cons, countChar_append, ih]
    by_cases hx : x = sq
    · subst hx
      simp only [escChar_sq, countChar, List.countP_cons, List.countP_nil]
      simp
      omega
    · by_cases hb : x = bs
      · subst hb
        simp only [escChar_bs, countChar, List.countP_cons, List.countP_nil]
        simp [bs_ne_sq]
      · simp only [escChar_other hx hb, countChar, List.countP_cons,
          List.countP_nil]
        simp [hx]

theorem countChar_bs_flatMap_escChar (t : List Char) :
    countChar bs (t.flatMap escChar) = 2 * countChar bs t := by
  induction t with
  | nil => rfl
  | cons x xs ih =>
    rw [List.flatMap_cons, countChar_append, ih]
    by_cases hx : x = sq
    · subst hx
      simp only [escChar_sq, countChar, List.countP_cons, List.countP_nil]
      simp [sq_ne_bs]
    · by_cases hb : x = bs
      · subst hb
        simp only [escChar_bs, countChar, List.countP_cons, List.countP_nil]
        simp
        omega
      · simp only [escChar_other hx hb, countChar, List.countP_cons,
          List.countP_nil]
        simp [hb]

theorem quotesPaired_cons_of_ne {x : Char} (hx : x ≠ sq) (l : List Char) :
    quotesPaired (x :: l) = quotesPaired l := by
  rw [quotesPaired.eq_def]
  simp [hx]

theorem quotesPaired_sq_sq (l : List Char) :
    quotesPaired (sq :: sq :: l) = quotesPaired l := by
  rw [quotesPaired.eq_def]
  simp

theorem quotesPaired_flatMap_escChar (t : List Char) :
    quotesPaired (t.flatMap escChar) = true := by
  induction t with
  | nil => rfl
  | cons x xs ih =>
    rw [List.flatMap_cons]
    by_cases hx : x = sq
    · subst hx
      rw [escChar_sq]
      simpa [quotesPaired_sq_sq] using ih
    · by_cases hb : x = bs
      · subst hb
        rw [escChar_bs]
        show quotesPaired (bs :: bs :: xs.flatMap escChar) = true
        rw [quotesPaired_cons_of_ne bs_ne_sq, quotesPaired_cons_of_ne bs_ne_sq]
        exact ih
      · rw [escChar_other hx hb]
        show quotesPaired (x :: xs.flatMap escChar) = true
        rw [quotesPaired_cons_of_ne hx]
        exact ih

theorem escape_sql_str_eq_take (t : List Char) :
    escape_sql (PyVal.str t) = (escapedFull t).take 1000 := rfl

theorem escape_sql_length_le (v : PyVal) : (escape_sql v).length ≤ 1000 := by
  cases v with
  | nonStr => simp [escape_sql]
  | str t =>
    rw [escape_sql_str_eq_take]
    simp [List.length_take_le]

theorem escape_sql_of_short {t : List Char} (h : (escapedFull t).length ≤ 1000) :
    escape_sql (PyVal.str t) = escapedFull t := by
  rw [escape_sql_str_eq_take]
  exact List.take_of_length_le h

theorem flatMap_escChar_replicate_a (n : Nat) :
    (List.replicate n 'a').flatMap escChar = List.replicate n 'a' := by
  induction n with
  | zero => rfl
  | succ k ih =>
    rw [List.replicate_succ, List.flatMap_cons, ih,
      escChar_other (by decide) (by decide)]
    rfl

theorem quotesPaired_replicate_a_append (n : Nat) (l : List Char) :
    quotesPaired (List.replicate n 'a' ++ l) = quotesPaired l := by
  induction n with
  | zero => rfl
  | succ k ih =>
    rw [List.replicate_succ, List.cons_append,
      quotesPaired_cons_of_ne (by decide), ih]

theorem countChar_sq_replicate_a (n : Nat) :
    countChar sq (List.replicate n 'a') = 0 := by
  induction n with
  | zero => rfl
  | succ k ih =>
    rw [List.replicate_succ]
    simp only [countChar] at ih ⊢
    rw [List.countP_cons, ih]
    simp [show ¬ (('a' : Char) = sq) by decide]

theorem escape_sql_badEscapeInput :
    escape_sql (PyVal.str badEscapeInput) = List.replicate 999 'a' ++ [sq] := by
  rw [escape_sql_str_eq_take, escapedFull_eq_flatMap, badEscapeInput,
    List.flatMap_append, flatMap_escChar_replicate_a]
  rw [show ([sq] : List Char).flatMap escChar = [sq, sq] by
    rw [List.flatMap_cons, escChar_sq]; rfl]
  rw [show (1000 : Nat) = (List.replicate 999 'a').length + 1 by
    rw [List.length_replicate]]
  rw [List.take_append]
  rfl

theorem civ_map_values_hyphen_free : ∀ p ∈ civ_map, '-' ∉ p.2.data := by
  decide

/-! ## Claims -/

/-- **C1**: civilization-slug normalization is the two-tier total function of
`SyncService._normalize_civ_id`: every key of the static table maps to the
table's canonical id, every slug that is not a key maps to itself with every
hyphen replaced by an underscore, and in particular `new-civ` maps to
`new_civ`. -/
theorem normalize_civ_id_two_tier :
    (∀ k v : String, (k, v) ∈ civ_map → normalize_civ_id k = v) ∧
    (∀ s : String, (∀ p ∈ civ_map, p.1 ≠ s) →
      normalize_civ_id s = String.mk (pyReplaceChar '-' ['_'] s.data)) ∧
    normalize_civ_id "new-civ" = "new_civ" := by
  refine ⟨?_, ?_, ?_⟩
  · intro k v h
    fin_cases h <;> rfl
  · intro s h
    have hf : civ_map.find? (fun p => p.1 = s) = none := by
      apply List.find?_eq_none.mpr
      intro p hp
      simpa using h p hp
    simp [normalize_civ_id, dictGet, hf]
  · rfl

/-- Witness for C1: the theorem applied to the concrete table entry
`golden-horde` and to the unmapped slug `new-civ`. -/
theorem normalize_civ_id_two_tier_witness :
    normalize_civ_id "golden-horde" = "golden_horde" ∧
    normalize_civ_id "new-civ" = "new_civ" :=
  ⟨normalize_civ_id_two_tier.1 "golden-horde" "golden_horde" (by decide),
   normalize_civ_id_two_tier.2.1 "new-civ" (by decide)⟩

/-- **C10**: every value of the static slug table is hyphen-free and the
fallback replaces every hyphen, so `_normalize_civ_id` never returns a
civilization id containing a hyphen. -/
theorem normalize_civ_id_no_hyphen :
    (∀ p ∈ civ_map, '-' ∉ p.2.data) ∧
    ∀ s : String, '-' ∉ (normalize_civ_id s).data := by
  refine ⟨civ_map_values_hyphen_free, ?_⟩
  intro s
  cases hf : civ_map.find? (fun p => p.1 = s) with
  | some p =>
    simp only [normalize_civ_id, dictGet, hf]
    exact civ_map_values_hyphen_free p (List.mem_of_find?_eq_some hf)
  | none =>
    simp only [normalize_civ_id, dictGet, hf]
    exact mem_pyReplaceChar_self_of_not_mem (by decide) s.data

/-- Witness for C10: hyphen-freedom evaluated at one mapped slug and one
unmapped hyphenated slug. -/
theorem normalize_civ_id_no_hyphen_witness :
    '-' ∉ ((("zhu-xis-legacy", "zhuxi") : String × String)).2.data ∧
    '-' ∉ (normalize_civ_id "order-of-the-dragon").data ∧
    '-' ∉ (normalize_civ_id "new-civ").data :=
  ⟨normalize_civ_id_no_hyphen.1 ("zhu-xis-legacy", "zhuxi") (by decide),
   normalize_civ_id_no_hyphen.2 "order-of-the-dragon",
   normalize_civ_id_no_hyphen.2 "new-civ"⟩

/-- **C6**: in both the civ_units and civ_buildings exporters the derived
gold-channel cost is the sum of the gold cost and the two minor currencies
(`oliveoil`, `vizier`) folded additively into it; on
`[gold 100, oliveoil 20, vizier 5]` both yield exactly 125. -/
theorem cost_gold_channel :
    (∀ c : CostDict, unit_cost_gold c =
      costsGet c "gold" + costsGet c "oliveoil" + costsGet c "vizier") ∧
    (∀ c : CostDict, building_cost_gold c = unit_cost_gold c) ∧
    unit_cost_gold [("gold", 100), ("oliveoil", 20), ("vizier", 5)] = 125 ∧
    building_cost_gold [("gold", 100), ("oliveoil", 20), ("vizier", 5)] = 125 := by
  exact ⟨fun c => rfl, fun c => rfl, by decide, by decide⟩

/-- **C4 counterexample**: at the explicit 1000-character-boundary input
`badEscapeInput` (999 filler characters and one quote), the `[:1000]` slice of
`escape_sql` cuts a doubled quote in half: the quote of the input is *not*
doubled in the output and the output ends in an unescaped quote able to
terminate the SQL literal early. -/
theorem escape_sql_truncation_cex :
    countChar sq (escape_sql (PyVal.str badEscapeInput)) ≠
      2 * countChar sq badEscapeInput ∧
    quotesPaired (escape_sql (PyVal.str badEscapeInput)) = false := by
  have hsq1 : countChar sq [sq] = 1 := by decide
  constructor
  · rw [escape_sql_badEscapeInput, badEscapeInput, countChar_append,
      countChar_sq_replicate_a, hsq1]
    omega
  · rw [escape_sql_badEscapeInput, quotesPaired_replicate_a_append]
    decide

/-- **C4 (amended)**: `escape_sql` always yields at most 1000 characters and
yields `[]` on every non-string input; whenever the escaped text is not
truncated (its length is at most 1000), every single quote of the input is
doubled, every backslash is doubled, and quotes occur only in adjacent pairs,
so no unescaped quote can terminate the literal early; the concrete input
`It` + quote + `s a "test"` + backslash yields exactly its quote-doubled,
backslash-doubled form.  (Truncation can split a trailing escape pair, so the
doubling and pairing guarantees do not hold for inputs whose escaped form
exceeds 1000 characters.) -/
theorem escape_sql_spec :
    (∀ v : PyVal, (escape_sql v).length ≤ 1000) ∧
    (∀ t : List Char, (escapedFull t).length ≤ 1000 →
      countChar sq (escape_sql (PyVal.str t)) = 2 * countChar sq t ∧
      countChar bs (escape_sql (PyVal.str t)) = 2 * countChar bs t ∧
      quotesPaired (escape_sql (PyVal.str t)) = true) ∧
    escape_sql (PyVal.str itsATest) = itsATestEscaped ∧
    escape_sql PyVal.nonStr = [] := by
  refine ⟨escape_sql_length_le, ?_, by decide, rfl⟩
  intro t ht
  rw [escape_sql_of_short ht, escapedFull_eq_flatMap]
  exact ⟨countChar_sq_flatMap_escChar t, countChar_bs_flatMap_escChar t,
    quotesPaired_flatMap_escChar t⟩

/-- Witness for C4 (amended): the spec example input is short enough not to be
truncated, and the theorem evaluates on it. -/
theorem escape_sql_spec_witness :
    countChar sq (escape_sql (PyVal.str itsATest)) = 2 * countChar sq itsATest ∧
    quotesPaired (escape_sql (PyVal.str itsATest)) = true :=
  ⟨(escape_sql_spec.2.1 itsATest (by decide)).1,
   (escape_sql_spec.2.1 itsATest (by decide)).2.2⟩

/-- Filtering out exactly the elements that contribute an empty list leaves a
`flatMap` unchanged. -/
theorem flatMap_filter_of_nil {α β : Type} (l : List α) (p : α → Bool)
    (f : α → List β) (h : ∀ a, p a = false → f a = []) :
    (l.filter p).flatMap f = l.flatMap f := by
  induction l with
  | nil => rfl
  | cons x xs ih =>
    by_cases hx : p x = true
    · simp [List.filter_cons, hx, List.flatMap_cons, ih]
    · have hx0 : p x = false := by
        simpa using hx
      simp [List.filter_cons, hx0, List.flatMap_cons, h x hx0, ih]

/-- **C8**: meta-stats sync invoked with empty override lists (empty lists,
not `None`) attempts zero HTTP fetches, issues zero row-store writes, and
returns count 0. -/
theorem sync_civ_meta_stats_empty_overrides
    (fetch : String → String → Except Unit (List CivStat)) (ts : String) :
    sync_civ_meta_stats fetch ts (some []) (some []) =
      { fetches := [], upserts := [], ret := 0 } := rfl

/-- A Boolean emptiness test in an `if` agrees with the propositional one. -/
theorem ite_isEmpty_eq {α : Type} [DecidableEq α] (X : List α) :
    (if X.isEmpty then ([] : List (List α)) else [X]) =
      if X = [] then [] else [X] := by
  cases X <;> simp

/-- **C3**: in the meta-stats sync, pairs whose fetch raises contribute zero
records while the loop still attempts every pair; the records of all
successful pairs are upserted in one batch (no write when there are none) and
the returned count is the total number of records of the successful pairs
only. -/
theorem sync_civ_meta_stats_partial_failure
    (fetch : String → String → Except Unit (List CivStat)) (ts : String)
    (lbs rls : List String) :
    (sync_civ_meta_stats fetch ts (some lbs) (some rls)).fetches =
      lbs.flatMap (fun lb => rls.map (fun rl => (lb, rl))) ∧
    (sync_civ_meta_stats fetch ts (some lbs) (some rls)).ret =
      (((lbs.flatMap (fun lb => rls.map (fun rl => (lb, rl)))).filter
            (fun p => (fetch p.1 p.2).isOk)).map
          (fun p => ((fetch p.1 p.2).toOption.getD []).length)).sum ∧
    (sync_civ_meta_stats fetch ts (some lbs) (some rls)).upserts =
      (if ((lbs.flatMap (fun lb => rls.map (fun rl => (lb, rl)))).filter
            (fun p => (fetch p.1 p.2).isOk)).flatMap
          (fun p => ((fetch p.1 p.2).toOption.getD []).map
            (mkMetaStatRow p.1 p.2 ts)) = [] then []
       else
        [((lbs.flatMap (fun lb => rls.map (fun rl => (lb, rl)))).filter
            (fun p => (fetch p.1 p.2).isOk)).flatMap
          (fun p => ((fetch p.1 p.2).toOption.getD []).map
            (mkMetaStatRow p.1 p.2 ts))]) := by
  have hstats : ∀ p : String × String,
      (match fetch p.1 p.2 with
        | Except.ok stats => stats.map (mkMetaStatRow p.1 p.2 ts)
        | Except.error _ => []) =
      ((fetch p.1 p.2).toOption.getD []).map (mkMetaStatRow p.1 p.2 ts) := by
    intro p
    cases fetch p.1 p.2 <;> rfl
  have hnil : ∀ p : String × String, (fun q => (fetch q.1 q.2).isOk) p = false →
      ((fetch p.1 p.2).toOption.getD []).map (mkMetaStatRow p.1 p.2 ts) = [] := by
    intro p hp
    change (fetch p.1 p.2).isOk = false at hp
    cases hf : fetch p.1 p.2 with
    | ok stats =>
      rw [hf] at hp
      simp [Except.isOk, Except.toBool] at hp
    | error e => rfl
  have hmain :
      (lbs.flatMap (fun lb => rls.map (fun rl => (lb, rl)))).flatMap
          (fun p =>
            match fetch p.1 p.2 with
            | Except.ok stats => stats.map (mkMetaStatRow p.1 p.2 ts)
            | Except.error _ => []) =
        ((lbs.flatMap (fun lb => rls.map (fun rl => (lb, rl)))).filter
            (fun p => (fetch p.1 p.2).isOk)).flatMap
          (fun p => ((fetch p.1 p.2).toOption.getD []).map
            (mkMetaStatRow p.1 p.2 ts)) := by
    rw [List.flatMap_congr (fun p _ => hstats p)]
    rw [flatMap_filter_of_nil _ _ _ hnil]
  refine ⟨rfl, ?_, ?_⟩
  · simp only [sync_civ_meta_stats, Option.getD_some]
    rw [hmain, List.length_flatMap]
    simp [Function.comp_def, List.length_map]
  · simp only [sync_civ_meta_stats, Option.getD_some]
    rw [hmain]
    exact ite_isEmpty_eq _

/-- Witness for C3: a run over two pairs where the second fetch raises — only
the first pair's single record is counted and upserted. -/
theorem sync_civ_meta_stats_partial_failure_witness :
    (sync_civ_meta_stats
        (fun lb _ => if lb = "rm_solo" then
            Except.ok [⟨"english", 50, 10, 100, 50, 50⟩]
          else Except.error ())
        "t" (some ["rm_solo", "rm_team"]) (some ["all"])).ret = 1 :=
  ((sync_civ_meta_stats_partial_failure
      (fun lb _ => if lb = "rm_solo" then
          Except.ok [⟨"english", 50, 10, 100, 50, 50⟩]
        else Except.error ())
      "t" ["rm_solo", "rm_team"] ["all"]).2.1).trans (by decide)

/-- **C2 counterexample**: with a leaderboard page containing one player and a
row-store upsert that raises, the write step of `sync_leaderboard` does raise
(the un-caught body ends in an error after attempting the write), yet the
operation returns normally with 0 — the error does not propagate to the
caller, contrary to the claim. -/
theorem sync_leaderboard_write_error_not_propagated_cex :
    (sync_leaderboard_body
        (fun _ => Except.ok ⟨[⟨some 1, "p", 1, 1000, 10, 6, 4, 60⟩]⟩)
        (fun _ => Except.error ()) "t" "rm_solo" 50).result = Except.error () ∧
    (sync_leaderboard_body
        (fun _ => Except.ok ⟨[⟨some 1, "p", 1, 1000, 10, 6, 4, 60⟩]⟩)
        (fun _ => Except.error ()) "t" "rm_solo" 50).writeAttempts.length = 1 ∧
    (sync_leaderboard
        (fun _ => Except.ok ⟨[⟨some 1, "p", 1, 1000, 10, 6, 4, 60⟩]⟩)
        (fun _ => Except.error ()) "t" "rm_solo" 50).result = Except.ok 0 := by
  exact ⟨rfl, rfl, rfl⟩

/-- **C2 (amended)**: `sync_leaderboard` never lets an exception escape — its
whole body, row-store write included, runs under `try`/`except`; in
particular, when the fetch succeeds and the write raises, the write is
attempted once and the call returns 0. -/
theorem sync_leaderboard_write_error_caught
    (api : LBRequest → Except Unit LBResponse)
    (db : List PlayerRow → Except Unit Unit) (ts lb : String) (n : Nat) :
    (∃ k, (sync_leaderboard api db ts lb n).result = Except.ok k) ∧
    (∀ resp : LBResponse,
      api { leaderboard := lb, count := min n 200, page := 1 } =
        Except.ok resp →
      resp.players ≠ [] →
      db (resp.players.map (mkPlayerRow lb ts)) = Except.error () →
      (sync_leaderboard api db ts lb n).writeAttempts =
          [resp.players.map (mkPlayerRow lb ts)] ∧
        (sync_leaderboard api db ts lb n).result = Except.ok 0) := by
  constructor
  · cases hres : (sync_leaderboard_body api db ts lb n).result with
    | ok k =>
      exact ⟨k, by simp [sync_leaderboard, hres, catchReturnZero]⟩
    | error e =>
      exact ⟨0, by simp [sync_leaderboard, hres, catchReturnZero]⟩
  · intro resp hapi hne hdb
    have hemp : (resp.players.map (mkPlayerRow lb ts)).isEmpty = false := by
      cases hp : resp.players with
      | nil => exact absurd hp hne
      | cons a l => simp [hp]
    have hbody : sync_leaderboard_body api db ts lb n =
        { requests := [{ leaderboard := lb, count := min n 200, page := 1 }]
          writeAttempts := [resp.players.map (mkPlayerRow lb ts)]
          result := Except.error () } := by
      unfold sync_leaderboard_body
      rw [hapi]
      simp only [hemp, Bool.false_eq_true, if_false, hdb]
    constructor
    · simp [sync_leaderboard, hbody]
    · simp [sync_leaderboard, hbody, catchReturnZero]

/-- Witness for C2 (amended): the theorem applied to a concrete one-player
page and an always-failing row store. -/
theorem sync_leaderboard_write_error_caught_witness :
    (sync_leaderboard
        (fun _ => Except.ok ⟨[⟨some 7, "q", 2, 900, 8, 4, 4, 50⟩]⟩)
        (fun _ => Except.error ()) "t" "rm_1v1" 10).result = Except.ok 0 :=
  ((sync_leaderboard_write_error_caught
      (fun _ => Except.ok ⟨[⟨some 7, "q", 2, 900, 8, 4, 4, 50⟩]⟩)
      (fun _ => Except.error ()) "t" "rm_1v1" 10).2
    ⟨[⟨some 7, "q", 2, 900, 8, 4, 4, 50⟩]⟩ rfl (by decide) rfl).2

/-- **C7**: on the success path, `sync_leaderboard` with requested player
count `n` issues exactly one leaderboard-page request whose `count` parameter
is `min(n, 200)` (and `page = 1`), builds exactly one row per player the page
returned, upserts them in a single batch — no write when the page is empty —
and returns the number of players the page returned, which is at most `n`
whenever the page honours the requested count. -/
theorem sync_leaderboard_success_spec
    (api : LBRequest → Except Unit LBResponse)
    (db : List PlayerRow → Except Unit Unit) (ts lb : String) (n : Nat)
    (resp : LBResponse)
    (hapi : api { leaderboard := lb, count := min n 200, page := 1 } =
      Except.ok resp)
    (hdb : db (resp.players.map (mkPlayerRow lb ts)) = Except.ok ()) :
    (sync_leaderboard api db ts lb n).requests =
      [{ leaderboard := lb, count := min n 200, page := 1 }] ∧
    (sync_leaderboard api db ts lb n).writeAttempts =
      (if resp.players = [] then []
       else [resp.players.map (mkPlayerRow lb ts)]) ∧
    (∀ rows ∈ (sync_leaderboard api db ts lb n).writeAttempts,
      rows.length = resp.players.length) ∧
    (sync_leaderboard api db ts lb n).result =
      Except.ok resp.players.length ∧
    (resp.players.length ≤ n →
      ∀ k, (sync_leaderboard api db ts lb n).result = Except.ok k → k ≤ n) := by
  by_cases hemp : resp.players = []
  · have hbody : sync_leaderboard_body api db ts lb n =
        { requests := [{ leaderboard := lb, count := min n 200, page := 1 }]
          writeAttempts := []
          result := Except.ok (resp.players.map (mkPlayerRow lb ts)).length } := by
      unfold sync_leaderboard_body
      rw [hapi]
      simp [hemp]
    refine ⟨by simp [sync_leaderboard, hbody], ?_, ?_, ?_, ?_⟩
    · simp [sync_leaderboard, hbody, hemp]
    · intro rows hrows
      simp [sync_leaderboard, hbody] at hrows
    · simp [sync_leaderboard, hbody, catchReturnZero]
    · intro hle k hk
      simp [sync_leaderboard, hbody, catchReturnZero] at hk
      omega
  · have hne : (resp.players.map (mkPlayerRow lb ts)).isEmpty = false := by
      cases hp : resp.players with
      | nil => exact absurd hp hemp
      | cons a l => simp [hp]
    have hbody : sync_leaderboard_body api db ts lb n =
        { requests := [{ leaderboard := lb, count := min n 200, page := 1 }]
          writeAttempts := [resp.players.map (mkPlayerRow lb ts)]
          result := Except.ok (resp.players.map (mkPlayerRow lb ts)).length } := by
      unfold sync_leaderboard_body
      rw [hapi]
      simp only [hne, Bool.false_eq_true, if_false, hdb]
    refine ⟨by simp [sync_leaderboard, hbody], ?_, ?_, ?_, ?_⟩
    · simp [sync_leaderboard, hbody, hemp]
    · intro rows hrows
      simp [sync_leaderboard, hbody] at hrows
      simp [hrows]
    · simp [sync_leaderboard, hbody, catchReturnZero]
    · intro hle k hk
      simp [sync_leaderboard, hbody, catchReturnZero] at hk
      omega

/-- Witness for C7: a concrete request of 10 players against a page returning
two players — one request with `count = 10`, result 2. -/
theorem sync_leaderboard_success_spec_witness :
    (sync_leaderboard
        (fun _ => Except.ok ⟨[⟨some 1, "a", 1, 1100, 4, 3, 1, 75⟩,
                              ⟨some 2, "b", 2, 1000, 4, 2, 2, 50⟩]⟩)
        (fun _ => Except.ok ()) "t" "rm_solo" 10).requests =
      [{ leaderboard := "rm_solo", count := 10, page := 1 }] ∧
    (sync_leaderboard
        (fun _ => Except.ok ⟨[⟨some 1, "a", 1, 1100, 4, 3, 1, 75⟩,
                              ⟨some 2, "b", 2, 1000, 4, 2, 2, 50⟩]⟩)
        (fun _ => Except.ok ()) "t" "rm_solo" 10).result = Except.ok 2 := by
  have h := sync_leaderboard_success_spec
    (fun _ => Except.ok ⟨[⟨some 1, "a", 1, 1100, 4, 3, 1, 75⟩,
                          ⟨some 2, "b", 2, 1000, 4, 2, 2, 50⟩]⟩)
    (fun _ => Except.ok ()) "t" "rm_solo" 10
    ⟨[⟨some 1, "a", 1, 1100, 4, 3, 1, 75⟩,
      ⟨some 2, "b", 2, 1000, 4, 2, 2, 50⟩]⟩ rfl rfl
  exact ⟨h.1, h.2.2.2.1⟩

/-- **C5 counterexample**: the claim measures the enforced interval "from the
end of the previous request to the start of the next", but `_rate_limit` runs
— and records `last_request_time` — *before* `session.get`, so with a 0.5s
delay and a request lasting 1s the next GET starts immediately after the
previous one ends: the end-to-start interval is 0, not at least 0.5. -/
theorem rate_limiter_end_to_start_cex :
    (make_request_timing (1/2)
        (idle (make_request_timing (1/2) ⟨100, 0⟩ 0 1).state 0) 0
        0).getStart -
      (make_request_timing (1/2) ⟨100, 0⟩ 0 1).getEnd = 0 ∧
    ¬ ((1 : ℚ)/2 ≤
      (make_request_timing (1/2)
          (idle (make_request_timing (1/2) ⟨100, 0⟩ 0 1).state 0) 0
          0).getStart -
        (make_request_timing (1/2) ⟨100, 0⟩ 0 1).getEnd) := by
  norm_num [make_request_timing, rate_limit, idle]

/-- **C5 (amended)**: the rate limiter guarantees that the timestamps the
client records for two consecutive requests — each taken just before its GET
is issued, not after the previous one ends — differ by at least the configured
delay, and when called less than `delay` after the recorded time it sleeps
exactly the remaining delta. -/
theorem rate_limiter_min_interval
    (delay : ℚ) (s : RLState) (slack1 get1 i slack2 get2 : ℚ)
    (hdelay : 0 ≤ delay) (hs1 : 0 ≤ slack1) (hg1 : 0 ≤ get1) (hi : 0 ≤ i)
    (hs2 : 0 ≤ slack2) :
    delay ≤
      (make_request_timing delay
          (idle (make_request_timing delay s slack1 get1).state i) slack2
          get2).recorded -
        (make_request_timing delay s slack1 get1).recorded ∧
    (∀ s0 : RLState, ∀ d : ℚ, s0.now - s0.last_request_time < delay →
      (rate_limit delay s0 d).2 = delay - (s0.now - s0.last_request_time)) := by
  constructor
  · simp only [make_request_timing, rate_limit, idle]
    split_ifs <;> linarith
  · intro s0 d h
    simp [rate_limit, h]

/-- Witness for C5 (amended): two back-to-back zero-duration requests starting
from the initial state — the recorded timestamps are exactly 0.5 apart. -/
theorem rate_limiter_min_interval_witness :
    (1 : ℚ)/2 ≤
      (make_request_timing (1/2)
          (idle (make_request_timing (1/2) ⟨0, 0⟩ 0 0).state 0) 0
          0).recorded -
        (make_request_timing (1/2) ⟨0, 0⟩ 0 0).recorded :=
  (rate_limiter_min_interval (1/2) ⟨0, 0⟩ 0 0 0 0 0 (by norm_num)
    le_rfl le_rfl le_rfl le_rfl).1

theorem dedup_step_skip {e : Entity} {rest : List Entity} {seen : List String}
    (h : e.id = "" ∨ e.id ∈ seen) :
    dedupBaseInserts (e :: rest) seen = dedupBaseInserts rest seen := by
  simp only [dedupBaseInserts]
  rw [if_pos h]

theorem dedup_step_emit {e : Entity} {rest : List Entity} {seen : List String}
    (h : ¬(e.id = "" ∨ e.id ∈ seen)) :
    dedupBaseInserts (e :: rest) seen =
      mkBaseInsert e :: dedupBaseInserts rest (e.id :: seen) := by
  simp only [dedupBaseInserts]
  rw [if_neg h]

theorem dedupBaseInserts_eq_aux (es : List Entity) :
    ∀ seen : List String,
      dedupBaseInserts es seen =
        firstOccurrences (es.filter (fun e => decide (e.id ∉ seen))) := by
  induction es with
  | nil =>
    intro seen
    rw [List.filter_nil]
    simp only [dedupBaseInserts, firstOccurrences]
  | cons e rest ih =>
    intro seen
    by_cases hseen : e.id ∈ seen
    · rw [dedup_step_skip (Or.inr hseen), ih seen]
      congr 1
      simp [List.filter_cons, hseen]
    · by_cases hid : e.id = ""
      · rw [dedup_step_skip (Or.inl hid), ih seen]
        rw [show (e :: rest).filter (fun x => decide (x.id ∉ seen)) =
            e :: rest.filter (fun x => decide (x.id ∉ seen)) from by
          simp [List.filter_cons, hseen]]
        rw [show firstOccurrences
              (e :: rest.filter (fun x => decide (x.id ∉ seen))) =
            firstOccurrences (rest.filter (fun x => decide (x.id ∉ seen)))
          from by
          simp only [firstOccurrences]
          rw [if_pos hid]]
      · rw [dedup_step_emit (by
            intro hc
            rcases hc with hc | hc
            · exact hid hc
            · exact hseen hc)]
        rw [ih (e.id :: seen)]
        rw [show (e :: rest).filter (fun x => decide (x.id ∉ seen)) =
            e :: rest.filter (fun x => decide (x.id ∉ seen)) from by
          simp [List.filter_cons, hseen]]
        rw [show firstOccurrences
              (e :: rest.filter (fun x => decide (x.id ∉ seen))) =
            mkBaseInsert e ::
              firstOccurrences
                ((rest.filter (fun x => decide (x.id ∉ seen))).filter
                  (fun x => decide (x.id ≠ e.id))) from by
          simp only [firstOccurrences]
          rw [if_neg hid]]
        congr 2
        rw [List.filter_filter]
        apply List.filter_congr
        intro x _
        by_cases h1 : x.id = e.id <;> by_cases h2 : x.id ∈ seen <;>
          simp [h1, h2]

theorem dedupBaseInserts_id_not_mem (es : List Entity) :
    ∀ seen : List String, ∀ b ∈ dedupBaseInserts es seen, b.id ∉ seen := by
  induction es with
  | nil =>
    intro seen b hb
    simp [dedupBaseInserts] at hb
  | cons e rest ih =>
    intro seen b hb
    by_cases hc : e.id = "" ∨ e.id ∈ seen
    · rw [dedup_step_skip hc] at hb
      exact ih seen b hb
    · rw [dedup_step_emit hc] at hb
      push_neg at hc
      rcases List.mem_cons.mp hb with rfl | hb2
      · exact hc.2
      · intro hmem
        exact ih (e.id :: seen) b hb2 (List.mem_cons_of_mem _ hmem)

theorem dedupBaseInserts_id_ne_empty (es : List Entity) :
    ∀ seen : List String, ∀ b ∈ dedupBaseInserts es seen, b.id ≠ "" := by
  induction es with
  | nil =>
    intro seen b hb
    simp [dedupBaseInserts] at hb
  | cons e rest ih =>
    intro seen b hb
    by_cases hc : e.id = "" ∨ e.id ∈ seen
    · rw [dedup_step_skip hc] at hb
      exact ih seen b hb
    · rw [dedup_step_emit hc] at hb
      push_neg at hc
      rcases List.mem_cons.mp hb with rfl | hb2
      · exact hc.1
      · exact ih (e.id :: seen) b hb2

theorem dedupBaseInserts_pairwise (es : List Entity) :
    ∀ seen : List String,
      (dedupBaseInserts es seen).Pairwise (fun a b => a.id ≠ b.id) := by
  induction es with
  | nil =>
    intro seen
    simp [dedupBaseInserts]
  | cons e rest ih =>
    intro seen
    by_cases hc : e.id = "" ∨ e.id ∈ seen
    · rw [dedup_step_skip hc]
      exact ih seen
    · rw [dedup_step_emit hc]
      refine List.Pairwise.cons ?_ (ih (e.id :: seen))
      intro b hb
      have hnm := dedupBaseInserts_id_not_mem rest (e.id :: seen) b hb
      intro heq
      exact hnm (by
        rw [← heq]
        exact List.mem_cons_self _ _)

theorem dedupBaseInserts_covers (es : List Entity) :
    ∀ seen : List String, ∀ e ∈ es, e.id ≠ "" → e.id ∉ seen →
      ∃ b ∈ dedupBaseInserts es seen, b.id = e.id := by
  induction es with
  | nil =>
    intro seen e he
    simp at he
  | cons hd rest ih =>
    intro seen e he hne hnotseen
    by_cases hc : hd.id = "" ∨ hd.id ∈ seen
    · rw [dedup_step_skip hc]
      rcases List.mem_cons.mp he with rfl | he2
      · rcases hc with hc | hc
        · exact absurd hc hne
        · exact absurd hc hnotseen
      · exact ih seen e he2 hne hnotseen
    · rw [dedup_step_emit hc]
      rcases List.mem_cons.mp he with rfl | he2
      · exact ⟨mkBaseInsert e, List.mem_cons_self _ _, rfl⟩
      · by_cases heq : e.id = hd.id
        · exact ⟨mkBaseInsert hd, List.mem_cons_self _ _, heq.symm⟩
        · obtain ⟨b, hb, hbid⟩ := ih (hd.id :: seen) e he2 hne (by
            intro hmem
            rcases List.mem_cons.mp hmem with h | h
            · exact heq h
            · exact hnotseen h)
          exact ⟨b, List.mem_cons_of_mem _ hb, hbid⟩

/-- **C9**: the generator's base-table emission (identical for units,
buildings and technologies) deduplicates by identifier across the
concatenation of the per-civilization files in processing order: it equals the
first-occurrence dedup (so each emitted INSERT carries the escaped name and
description of the identifier's first occurrence and later occurrences are
dropped), emits pairwise-distinct non-empty identifiers, and emits one INSERT
for every non-empty identifier that occurs. -/
theorem generator_base_dedup (files : List (List Entity)) :
    dedupBaseInserts files.flatten [] = firstOccurrences files.flatten ∧
    (dedupBaseInserts files.flatten []).Pairwise (fun a b => a.id ≠ b.id) ∧
    (∀ b ∈ dedupBaseInserts files.flatten [], b.id ≠ "") ∧
    (∀ e ∈ files.flatten, e.id ≠ "" →
      ∃ b ∈ dedupBaseInserts files.flatten [], b.id = e.id) := by
  refine ⟨?_, dedupBaseInserts_pairwise files.flatten [],
    fun b hb => dedupBaseInserts_id_ne_empty files.flatten [] b hb,
    fun e he hne =>
      dedupBaseInserts_covers files.flatten [] e he hne (by simp)⟩
  have h := dedupBaseInserts_eq_aux files.flatten []
  rw [h]
  congr 1
  apply List.filter_eq_self.mpr
  intro a _
  simp

/-- Witness for C9: two files with a duplicated identifier `a`, an empty
identifier, and a fresh identifier `b` — the first occurrence of `a` wins. -/
theorem generator_base_dedup_witness :
    dedupBaseInserts
        ([[⟨"a", "n1", "d1"⟩, ⟨"a", "n2", "d2"⟩],
          [⟨"", "x", "y"⟩, ⟨"b", "n3", "d3"⟩]] : List (List Entity)).flatten
        [] =
      firstOccurrences
        ([[⟨"a", "n1", "d1"⟩, ⟨"a", "n2", "d2"⟩],
          [⟨"", "x", "y"⟩, ⟨"b", "n3", "d3"⟩]] : List (List Entity)).flatten ∧
    (∃ b ∈ dedupBaseInserts
        ([[⟨"a", "n1", "d1"⟩, ⟨"a", "n2", "d2"⟩],
          [⟨"", "x", "y"⟩, ⟨"b", "n3", "d3"⟩]] : List (List Entity)).flatten
        [], b.id = "a") :=
  ⟨(generator_base_dedup
      [[⟨"a", "n1", "d1"⟩, ⟨"a", "n2", "d2"⟩],
       [⟨"", "x", "y"⟩, ⟨"b", "n3", "d3"⟩]]).1,
   (generator_base_dedup
      [[⟨"a", "n1", "d1"⟩, ⟨"a", "n2", "d2"⟩],
       [⟨"", "x", "y"⟩, ⟨"b", "n3", "d3"⟩]]).2.2.2
     ⟨"a", "n1", "d1"⟩ (by decide) (by decide)⟩

end Aoe4
